import Mathlib

/-!
Verification of the LogFileAnalyzer repository: a shallow embedding of the
log generator (`src/LogGenerator/LogGenerator.cpp`), the line-counting
analyzer (`src/LogFileAnalyzer/LogFileAnalyzer.cpp`), and — modelled from
the specification, since the repository does not yet contain them — the
record parser and streaming aggregator described in the spec.
-/

namespace LogFileAnalyzer

/-! ## Decimal formatting

`operator<<` on an integral value writes its decimal digit string.  We embed
that as `natToDecimal`, built from the digit list `decDigits`. -/

/-- Fuel-bounded decimal digit extraction, most significant digit first. -/
def decDigitsAux : Nat → Nat → List Char
  | 0, _ => []
  | fuel + 1, n =>
    if n < 10 then [Char.ofNat (48 + n)]
    else decDigitsAux fuel (n / 10) ++ [Char.ofNat (48 + n % 10)]

/-- The result of `decDigitsAux` does not depend on the fuel, once the fuel
exceeds the number. -/
theorem decDigitsAux_congr :
    ∀ f₁ f₂ n : Nat, n < f₁ → n < f₂ → decDigitsAux f₁ n = decDigitsAux f₂ n := by
  intro f₁
  induction f₁ with
  | zero => intro f₂ n h1 _; omega
  | succ f ih =>
    intro f₂ n h1 h2
    cases f₂ with
    | zero => omega
    | succ g =>
      simp only [decDigitsAux]
      split
      · rfl
      · rename_i hn
        congr 1
        exact ih g (n / 10) (by omega) (by omega)

/-- The decimal digit characters of `n`, most significant first
(`decDigits 0 = ['0']`). -/
def decDigits (n : Nat) : List Char :=
  decDigitsAux (n + 1) n

/-- The recursive unfolding of `decDigits`. -/
theorem decDigits_eq (n : Nat) :
    decDigits n = if n < 10 then [Char.ofNat (48 + n)]
      else decDigits (n / 10) ++ [Char.ofNat (48 + n % 10)] := by
  unfold decDigits
  simp only [decDigitsAux]
  split
  · rfl
  · rename_i hn
    congr 1
    exact decDigitsAux_congr n (n / 10 + 1) (n / 10) (by omega) (by omega)

/-- Decimal rendering of a natural number, as `operator<<` prints it. -/
def natToDecimal (n : Nat) : String :=
  String.mk (decDigits n)

/-- Every character of a digit list is one of the ten decimal digits. -/
theorem decDigits_mem (n : Nat) :
    ∀ c ∈ decDigits n, ∃ d, d < 10 ∧ c = Char.ofNat (48 + d) := by
  induction n using Nat.strong_induction_on with
  | _ n ih =>
    rw [decDigits_eq]
    split
    · intro c hc
      simp only [List.mem_singleton] at hc
      exact ⟨n, by omega, hc⟩
    · intro c hc
      rcases List.mem_append.mp hc with h1 | h2
      · exact ih (n / 10) (Nat.div_lt_self (by omega) (by omega)) c h1
      · simp only [List.mem_singleton] at h2
        exact ⟨n % 10, Nat.mod_lt _ (by omega), h2⟩

/-- Digit characters are never the `|` delimiter. -/
theorem bar_not_mem_decDigits (n : Nat) : '|' ∉ decDigits n := by
  intro hmem
  obtain ⟨d, hd, hc⟩ := decDigits_mem n '|' hmem
  interval_cases d <;> exact absurd hc (by decide)

/-- Digit characters satisfy `Char.isDigit`. -/
theorem decDigits_isDigit (n : Nat) : ∀ c ∈ decDigits n, c.isDigit := by
  intro c hc
  obtain ⟨d, hd, hcd⟩ := decDigits_mem n c hc
  subst hcd
  interval_cases d <;> decide

/-- A digit list is never empty. -/
theorem decDigits_ne_nil (n : Nat) : decDigits n ≠ [] := by
  rw [decDigits_eq]
  split <;> simp

/-! ## The generator's data pools (`LogGenerator.cpp`, lines 42–46) -/

def ip_addresses : List String :=
  ["203.0.113.89", "198.51.100.2", "192.168.1.10", "10.0.0.5",
   "172.16.31.45", "10.10.10.10"]

def user_ids : List String :=
  ["user_alpha", "user_beta", "quant_gamma", "trader_delta",
   "risk_epsilon", "admin_zeta"]

def actions : List String :=
  ["LOGIN", "LOGOUT", "TRADE_EXECUTE", "DATA_QUERY", "ORDER_CANCEL",
   "FAILED_LOGIN"]

def statuses : List String :=
  ["SUCCESS", "FAILURE", "PENDING"]

def trade_symbols : List String :=
  ["AAPL", "GOOG", "MSFT", "AMZN", "TSLA", "NVDA"]

/-! ## The generator's line assembly (`LogGenerator.cpp`, lines 56–97)

Randomly drawn values become explicit parameters: `pick` is the element
`getRandomElement` returns from `statuses`, `symbol` the one from
`trade_symbols`, and the double produced by `uniform_real_distribution` and
printed with `std::fixed << std::setprecision(2)` is embedded by its fixed
two-decimal rendering `formatFixed2 whole cents` (`cents < 100`). -/

/-- `std::fixed << std::setprecision(2)` rendering of the price:
whole part, a dot, then exactly two decimal digits. -/
def formatFixed2 (whole cents : Nat) : String :=
  natToDecimal whole ++ "." ++ (if cents < 10 then "0" else "") ++ natToDecimal cents

/-- Line 68: the status is forced to `FAILURE` for a `FAILED_LOGIN` action,
otherwise it is the element drawn from the `statuses` pool. -/
def chooseStatus (action pick : String) : String :=
  if action = "FAILED_LOGIN" then "FAILURE" else pick

/-- Lines 82–95: the context-specific details suffix of the log line. -/
def makeDetails (action symbol : String) (qty whole cents : Nat) : String :=
  if action = "TRADE_EXECUTE" then
    "Symbol:" ++ symbol ++ ",Quantity:" ++ natToDecimal qty ++ ",Price:" ++
      formatFixed2 whole cents
  else if action = "FAILED_LOGIN" then
    "ErrorCode:401_UNAUTHORIZED"
  else
    "Details:N/A"

/-- Lines 75–80: the fixed-field part of one log line,
`timestamp|ip|user|action|status|latency` followed by `ms|` and details. -/
def makeLogLine (ts : Nat) (ip user action status : String) (latency : Nat)
    (details : String) : String :=
  natToDecimal ts ++ "|" ++ ip ++ "|" ++ user ++ "|" ++ action ++ "|" ++
    status ++ "|" ++ natToDecimal latency ++ "ms|" ++ details

/-- One full log line as the generator emits it, with every random draw an
explicit parameter. -/
def generatedLine (ts : Nat) (ip user action pick : String) (latency : Nat)
    (symbol : String) (qty whole cents : Nat) : String :=
  makeLogLine ts ip user action (chooseStatus action pick) latency
    (makeDetails action symbol qty whole cents)

/-! ## Splitting a line on the `|` delimiter -/

/-- Split a string on the `|` delimiter into its fields. -/
def splitFields (s : String) : List String :=
  (s.toList.splitOn '|').map String.mk

/-- `splitFields` inverts gluing `|`-free fields with `|` separators. -/
theorem splitFields_of_bar_free (ls : List (List Char)) (hne : ls ≠ [])
    (hfree : ∀ l ∈ ls, '|' ∉ l) :
    splitFields (String.mk (List.intercalate ['|'] ls)) = ls.map String.mk := by
  unfold splitFields
  congr 1
  have : (String.mk (List.intercalate ['|'] ls)).toList
      = List.intercalate ['|'] ls := rfl
  rw [this]
  exact List.splitOn_intercalate ls '|' hfree hne

/-- A string free of the `|` delimiter. -/
def barFree (s : String) : Prop := '|' ∉ s.toList

instance : DecidablePred barFree :=
  fun s => inferInstanceAs (Decidable ('|' ∉ s.toList))

theorem barFree_append {a b : String} (ha : barFree a) (hb : barFree b) :
    barFree (a ++ b) := by
  simp only [barFree, String.toList, String.data_append, List.mem_append] at *
  tauto

theorem barFree_natToDecimal (n : Nat) : barFree (natToDecimal n) :=
  bar_not_mem_decDigits n

theorem barFree_formatFixed2 (whole cents : Nat) :
    barFree (formatFixed2 whole cents) := by
  unfold formatFixed2
  refine barFree_append (barFree_append (barFree_append ?_ ?_) ?_) ?_
  · exact barFree_natToDecimal whole
  · decide
  · split <;> decide
  · exact barFree_natToDecimal cents

theorem barFree_makeDetails {symbol : String} (action : String)
    (qty whole cents : Nat) (hsym : symbol ∈ trade_symbols) :
    barFree (makeDetails action symbol qty whole cents) := by
  unfold makeDetails
  split
  · refine barFree_append (barFree_append (barFree_append (barFree_append ?_ ?_) ?_) ?_) ?_
    · fin_cases hsym <;> decide
    · decide
    · exact barFree_natToDecimal qty
    · decide
    · exact barFree_formatFixed2 whole cents
  · split <;> decide

theorem barFree_chooseStatus {pick : String} (action : String)
    (hpick : pick ∈ statuses) : barFree (chooseStatus action pick) := by
  unfold chooseStatus
  split
  · decide
  · fin_cases hpick <;> decide

/-- The character list of a generated line is the `|`-intercalation of the
seven field character lists. -/
theorem makeLogLine_data (ts : Nat) (ip user action status : String)
    (latency : Nat) (details : String) :
    (makeLogLine ts ip user action status latency details).toList
      = List.intercalate ['|']
          [decDigits ts, ip.toList, user.toList, action.toList,
           status.toList, decDigits latency ++ ['m', 's'], details.toList] := by
  simp [makeLogLine, natToDecimal, List.intercalate, String.toList,
    String.data_append]

theorem barFree_of_mem_ip_addresses {s : String} (h : s ∈ ip_addresses) :
    barFree s := by
  fin_cases h <;> decide

theorem barFree_of_mem_user_ids {s : String} (h : s ∈ user_ids) :
    barFree s := by
  fin_cases h <;> decide

/-- Rebuilding a string from its character list is the identity. -/
theorem mk_toList (s : String) : String.mk s.toList = s := rfl

/-- The character list of the latency field, rebuilt as a string. -/
theorem mk_latencyField (n : Nat) :
    String.mk (decDigits n ++ ['m', 's']) = natToDecimal n ++ "ms" := by
  apply String.ext
  simp [String.data_append, natToDecimal]

/-- The seven fields of a generated line, in order. -/
theorem splitFields_generatedLine
    (ts latency qty whole cents : Nat) (ip user action pick symbol : String)
    (hip : ip ∈ ip_addresses) (huser : user ∈ user_ids)
    (hact : action ∈ actions) (hpick : pick ∈ statuses)
    (hsym : symbol ∈ trade_symbols) :
    splitFields (generatedLine ts ip user action pick latency symbol qty whole cents)
      = [natToDecimal ts, ip, user, action, chooseStatus action pick,
         natToDecimal latency ++ "ms", makeDetails action symbol qty whole cents] := by
  unfold generatedLine splitFields
  rw [makeLogLine_data]
  rw [List.splitOn_intercalate _ '|' ?free (by simp)]
  case free =>
    intro l hl
    simp only [List.mem_cons, List.not_mem_nil, or_false] at hl
    rcases hl with h | h | h | h | h | h | h <;> subst h
    · exact bar_not_mem_decDigits ts
    · exact barFree_of_mem_ip_addresses hip
    · exact barFree_of_mem_user_ids huser
    · intro hc
      fin_cases hact <;> revert hc <;> decide
    · exact barFree_chooseStatus action hpick
    · intro hc
      rcases List.mem_append.mp hc with h1 | h2
      · exact bar_not_mem_decDigits latency h1
      · revert h2; decide
    · exact barFree_makeDetails action qty whole cents hsym
  simp only [List.map_cons, List.map_nil, mk_toList, mk_latencyField]
  rfl

/-- C1: every line the generator emits splits on `|` into exactly the seven
fields timestamp, ip, user, action, status, latency, details — the details
field never contains a `|`. -/
theorem generator_line_seven_fields
    (ts latency qty whole cents : Nat) (ip user action pick symbol : String)
    (hip : ip ∈ ip_addresses) (huser : user ∈ user_ids)
    (hact : action ∈ actions) (hpick : pick ∈ statuses)
    (hsym : symbol ∈ trade_symbols) :
    splitFields (generatedLine ts ip user action pick latency symbol qty whole cents)
        = [natToDecimal ts, ip, user, action, chooseStatus action pick,
           natToDecimal latency ++ "ms", makeDetails action symbol qty whole cents]
      ∧ (splitFields
          (generatedLine ts ip user action pick latency symbol qty whole cents)).length = 7
      ∧ barFree (makeDetails action symbol qty whole cents) := by
  have hmain := splitFields_generatedLine ts latency qty whole cents
    ip user action pick symbol hip huser hact hpick hsym
  exact ⟨hmain, by rw [hmain]; rfl,
    barFree_makeDetails action qty whole cents hsym⟩

/-- Concrete instance of `generator_line_seven_fields`. -/
theorem generator_line_seven_fields_witness :
    splitFields (generatedLine 1672531205 "10.0.0.5" "user_alpha" "LOGIN"
          "SUCCESS" 42 "AAPL" 10 100 5)
        = ["1672531205", "10.0.0.5", "user_alpha", "LOGIN", "SUCCESS",
           "42ms", "Details:N/A"]
      ∧ (splitFields (generatedLine 1672531205 "10.0.0.5" "user_alpha" "LOGIN"
          "SUCCESS" 42 "AAPL" 10 100 5)).length = 7 := by
  have h := generator_line_seven_fields 1672531205 42 10 100 5 "10.0.0.5"
    "user_alpha" "LOGIN" "SUCCESS" "AAPL"
    (by decide) (by decide) (by decide) (by decide) (by decide)
  exact ⟨by rw [h.1]; decide, h.2.1⟩

/-! ## Numeric field parsing

Modelled from the spec: the parser's integer handling — the timestamp
"must parse as a non-negative integer" and the latency parser "must strip
the trailing literal `ms` suffix (case-sensitive) before integer-parsing".
The repository does not yet contain the parser, so these are built from the
spec's words. -/

/-- The value of a decimal digit string, most significant digit first. -/
def digitsVal (cs : List Char) : Nat :=
  cs.foldl (fun acc c => acc * 10 + (c.toNat - 48)) 0

/-- Modelled from the spec: parse a field as a non-negative integer —
`some` exactly when the field is a non-empty all-digit string. -/
def parseNat? (s : String) : Option Nat :=
  if s.toList ≠ [] ∧ ∀ c ∈ s.toList, c.isDigit then some (digitsVal s.toList)
  else none

/-- Modelled from the spec: strip the trailing literal `ms` suffix
(case-sensitive); `none` when the suffix is missing. -/
def stripSuffixMs (s : String) : Option String :=
  match s.toList.reverse with
  | 's' :: 'm' :: rest => some (String.mk rest.reverse)
  | _ => none

theorem stripSuffixMs_append (a : String) : stripSuffixMs (a ++ "ms") = some a := by
  unfold stripSuffixMs
  have hdata : (a ++ "ms").toList = a.toList ++ ['m', 's'] := by
    simp [String.toList, String.data_append]
  rw [hdata, List.reverse_append]
  simp [mk_toList]

theorem char_toNat_digit {d : Nat} (hd : d < 10) :
    (Char.ofNat (48 + d)).toNat = 48 + d := by
  interval_cases d <;> decide

/-- Folding the digit-accumulation step over `decDigits n` recovers `n`. -/
theorem foldl_decDigits (n : Nat) :
    ∀ a : Nat, (decDigits n).foldl (fun acc c => acc * 10 + (c.toNat - 48)) a
      = a * 10 ^ (decDigits n).length + n := by
  induction n using Nat.strong_induction_on with
  | _ n ih =>
    intro a
    rw [decDigits_eq]
    split
    · rename_i h
      simp only [List.foldl_cons, List.foldl_nil, List.length_singleton]
      rw [char_toNat_digit h]
      omega
    · rename_i h
      rw [List.foldl_append]
      simp only [List.foldl_cons, List.foldl_nil, List.length_append,
        List.length_singleton]
      rw [ih (n / 10) (by omega) a]
      have hc : (Char.ofNat (48 + n % 10)).toNat = 48 + n % 10 :=
        char_toNat_digit (Nat.mod_lt _ (by omega))
      rw [hc, pow_succ]
      have hring : (a * 10 ^ (decDigits (n / 10)).length + n / 10) * 10
          = a * (10 ^ (decDigits (n / 10)).length * 10) + (n / 10) * 10 := by
        ring
      rw [hring]
      omega

/-- `digitsVal` inverts `decDigits`. -/
theorem digitsVal_decDigits (n : Nat) : digitsVal (decDigits n) = n := by
  unfold digitsVal
  rw [foldl_decDigits n 0]
  omega

/-- Round trip: the parser's integer reader inverts the generator's decimal
formatting. -/
theorem parseNat?_natToDecimal (n : Nat) : parseNat? (natToDecimal n) = some n := by
  have h1 : (natToDecimal n).toList ≠ [] := decDigits_ne_nil n
  have h2 : ∀ c ∈ (natToDecimal n).toList, c.isDigit := decDigits_isDigit n
  unfold parseNat?
  rw [if_pos ⟨h1, h2⟩]
  exact congrArg some (digitsVal_decDigits n)

/-- C5: the latency field of every generated line is the decimal rendering
of the drawn latency (an integer between 5 and 250) immediately followed by
the literal `ms`, and stripping the suffix then integer-parsing recovers the
latency, as the parser contract requires. -/
theorem generator_latency_field_format
    (ts latency qty whole cents : Nat) (ip user action pick symbol : String)
    (h5 : 5 ≤ latency) (h250 : latency ≤ 250)
    (hip : ip ∈ ip_addresses) (huser : user ∈ user_ids)
    (hact : action ∈ actions) (hpick : pick ∈ statuses)
    (hsym : symbol ∈ trade_symbols) :
    (splitFields (generatedLine ts ip user action pick latency symbol qty whole cents)).getD 5 ""
        = natToDecimal latency ++ "ms"
      ∧ (∀ c ∈ (natToDecimal latency).toList, c.isDigit)
      ∧ stripSuffixMs (natToDecimal latency ++ "ms") = some (natToDecimal latency)
      ∧ parseNat? (natToDecimal latency) = some latency
      ∧ 5 ≤ latency ∧ latency ≤ 250 := by
  rw [splitFields_generatedLine ts latency qty whole cents
    ip user action pick symbol hip huser hact hpick hsym]
  exact ⟨rfl, decDigits_isDigit latency, stripSuffixMs_append _,
    parseNat?_natToDecimal latency, h5, h250⟩

/-- Concrete instance of `generator_latency_field_format`. -/
theorem generator_latency_field_format_witness :
    (splitFields (generatedLine 1672531205 "198.51.100.2" "user_beta" "LOGOUT"
          "PENDING" 42 "GOOG" 10 200 7)).getD 5 ""
        = natToDecimal 42 ++ "ms"
      ∧ parseNat? (natToDecimal 42) = some 42
      ∧ natToDecimal 42 ++ "ms" = "42ms" := by
  have h := generator_latency_field_format 1672531205 42 10 200 7
    "198.51.100.2" "user_beta" "LOGOUT" "PENDING" "GOOG"
    (by decide) (by decide) (by decide) (by decide) (by decide) (by decide)
    (by decide)
  exact ⟨h.1, h.2.2.2.1, by decide⟩

/-- C6: every status the generator emits — drawn from the `statuses` pool or
forced to `FAILURE` — is one of SUCCESS, FAILURE, PENDING. -/
theorem generator_status_in_pool (action pick : String)
    (hpick : pick ∈ statuses) :
    chooseStatus action pick ∈ statuses
      ∧ statuses = ["SUCCESS", "FAILURE", "PENDING"] := by
  refine ⟨?_, rfl⟩
  unfold chooseStatus
  split
  · decide
  · exact hpick

/-- Concrete instance of `generator_status_in_pool`. -/
theorem generator_status_in_pool_witness :
    "PENDING" ∈ statuses ∧ chooseStatus "FAILED_LOGIN" "PENDING" ∈ statuses :=
  ⟨by decide, (generator_status_in_pool "FAILED_LOGIN" "PENDING" (by decide)).1⟩

/-! ## The generator's timestamp stream (`LogGenerator.cpp`, lines 56–61)

Each iteration draws an increment from `uniform_int_distribution<>(1, 5)`
and adds it to the running timestamp before emitting the line. -/

/-- Line 56: the fixed start time. -/
def startTimestamp : Nat := 1672531200

/-- Lines 58–61: the timestamps the loop emits, one per increment drawn. -/
def genTimestamps (start : Nat) : List Nat → List Nat
  | [] => []
  | d :: ds => (start + d) :: genTimestamps (start + d) ds

theorem genTimestamps_chain :
    ∀ ds : List Nat, (∀ d ∈ ds, 1 ≤ d ∧ d ≤ 5) →
      ∀ start : Nat,
        List.Chain (fun a b => a < b ∧ b ≤ a + 5) start (genTimestamps start ds) := by
  intro ds
  induction ds with
  | nil => intro _ start; exact List.Chain.nil
  | cons d ds ih =>
    intro hd start
    have h1 := hd d (List.mem_cons_self d ds)
    exact List.Chain.cons ⟨by omega, by omega⟩
      (ih (fun x hx => hd x (List.mem_cons_of_mem d hx)) (start + d))

/-- C10: starting from 1672531200, each emitted timestamp exceeds the
previous one by between 1 and 5 inclusive, so the timestamps are strictly
increasing. -/
theorem generator_timestamps_strictly_increasing (ds : List Nat)
    (hd : ∀ d ∈ ds, 1 ≤ d ∧ d ≤ 5) :
    List.Chain (fun a b => a < b ∧ b ≤ a + 5) startTimestamp
        (genTimestamps startTimestamp ds)
      ∧ List.Pairwise (· < ·) (startTimestamp :: genTimestamps startTimestamp ds)
      ∧ startTimestamp = 1672531200 := by
  have hchain := genTimestamps_chain ds hd startTimestamp
  refine ⟨hchain, ?_, rfl⟩
  have hlt : List.Chain (· < ·) startTimestamp (genTimestamps startTimestamp ds) :=
    List.Chain.imp (fun a b h => h.1) hchain
  exact List.chain_iff_pairwise.mp hlt

/-- Concrete instance of `generator_timestamps_strictly_increasing`. -/
theorem generator_timestamps_strictly_increasing_witness :
    genTimestamps startTimestamp [1, 5, 3, 2]
        = [1672531201, 1672531206, 1672531209, 1672531211]
      ∧ List.Pairwise (· < ·)
          (startTimestamp :: genTimestamps startTimestamp [1, 5, 3, 2]) :=
  ⟨by decide,
    (generator_timestamps_strictly_increasing [1, 5, 3, 2] (by decide)).2.1⟩

/-! ## The line-counting analyzer (`LogFileAnalyzer.cpp`)

The process is embedded as a function of its argument vector and of the
environment's answer to opening the file at `argv[1]`: `none` when the open
fails, `some lines` when it succeeds and `std::getline` yields `lines`. -/

/-- The observable outcome of one analyzer run. -/
structure AnalyzerRun where
  exitCode : Nat
  stdoutLines : List String
  stderrLines : List String
  openAttempted : Bool
  linesRead : Nat
deriving DecidableEq

/-- Lines 72–75: the `while (std::getline(...))` loop — one increment of
`lineCounter` per line read. -/
def countLoop : List String → Nat → Nat
  | [], c => c
  | _ :: rest, c => countLoop rest (c + 1)

/-- `main` of `LogFileAnalyzer.cpp`. -/
def runAnalyzer (argv : List String) (openResult : Option (List String)) :
    AnalyzerRun :=
  if argv.length ≠ 2 then
    { exitCode := 1,
      stdoutLines := [],
      stderrLines := ["Error: Incorrect number of arguments.",
        "Usage: " ++ argv.headD "" ++ " <path_to_log_file>"],
      openAttempted := false,
      linesRead := 0 }
  else
    let logFilePath := argv.getD 1 ""
    let header := ["Initializing Log File Analyzer...",
      "------------------------------------",
      "Target log file: " ++ logFilePath]
    match openResult with
    | none =>
      { exitCode := 1,
        stdoutLines := header,
        stderrLines := ["Fatal Error: Could not open the log file at: " ++ logFilePath],
        openAttempted := true,
        linesRead := 0 }
    | some lines =>
      let lineCounter := countLoop lines 0
      { exitCode := 0,
        stdoutLines := header ++
          ["File opened successfully. Starting analysis...",
           "Analysis finished.",
           "Total lines processed: " ++ natToDecimal lineCounter,
           "------------------------------------"],
        stderrLines := [],
        openAttempted := true,
        linesRead := lineCounter }

theorem countLoop_eq (lines : List String) :
    ∀ c : Nat, countLoop lines c = c + lines.length := by
  induction lines with
  | nil => intro c; simp [countLoop]
  | cons l rest ih =>
    intro c
    rw [countLoop, ih (c + 1)]
    simp only [List.length_cons]
    omega

/-- C2: for every file that opens, the analyzer reads it line by line,
reports a total-lines count equal to the number of lines `getline` yields,
and exits with code 0. -/
theorem analyzer_counts_lines (prog path : String) (lines : List String) :
    (runAnalyzer [prog, path] (some lines)).exitCode = 0
      ∧ (runAnalyzer [prog, path] (some lines)).linesRead = lines.length
      ∧ ("Total lines processed: " ++ natToDecimal lines.length)
          ∈ (runAnalyzer [prog, path] (some lines)).stdoutLines := by
  have hc : countLoop lines 0 = lines.length := by
    rw [countLoop_eq]
    omega
  simp [runAnalyzer, hc]

/-- C3: with a single path argument, the analyzer fails — exit code 1 —
exactly when the open fails, in which case it prints a fatal error to stderr
and reads no lines. -/
theorem analyzer_fails_iff_open_fails (prog path : String) :
    (∀ openResult : Option (List String),
        (runAnalyzer [prog, path] openResult).exitCode = 1 ↔ openResult = none)
      ∧ (runAnalyzer [prog, path] none).linesRead = 0
      ∧ ("Fatal Error: Could not open the log file at: " ++ path)
          ∈ (runAnalyzer [prog, path] none).stderrLines := by
  refine ⟨?_, by simp [runAnalyzer], by simp [runAnalyzer]⟩
  intro openResult
  cases openResult <;> simp [runAnalyzer]

/-- C4: any invocation whose argument count is not exactly 2 yields the
error and usage messages on stderr and exit code 1, with no file opened and
no lines read. -/
theorem analyzer_rejects_bad_argc (argv : List String)
    (openResult : Option (List String)) (h : argv.length ≠ 2) :
    runAnalyzer argv openResult
      = { exitCode := 1,
          stdoutLines := [],
          stderrLines := ["Error: Incorrect number of arguments.",
            "Usage: " ++ argv.headD "" ++ " <path_to_log_file>"],
          openAttempted := false,
          linesRead := 0 } := by
  unfold runAnalyzer
  rw [if_pos h]

/-- Concrete instance of `analyzer_rejects_bad_argc`. -/
theorem analyzer_rejects_bad_argc_witness :
    (["LogFileAnalyzer"] : List String).length ≠ 2
      ∧ runAnalyzer ["LogFileAnalyzer"] none
          = { exitCode := 1,
              stdoutLines := [],
              stderrLines := ["Error: Incorrect number of arguments.",
                "Usage: LogFileAnalyzer <path_to_log_file>"],
              openAttempted := false,
              linesRead := 0 } := by
  refine ⟨by decide, ?_⟩
  rw [analyzer_rejects_bad_argc ["LogFileAnalyzer"] none (by decide)]
  decide

/-! ## The record parser

Modelled from the spec: the repository does not yet contain the Record
Parser it describes (§4.1), so the contract
`parse(line, line_number) -> LogRecord | ParseError` is built from the
spec's words. -/

/-- Modelled from the spec: the parse-error taxonomy (§7). -/
inductive ErrorKind where
  | MalformedFieldCount
  | InvalidTimestamp
  | InvalidLatency
deriving DecidableEq

/-- Modelled from the spec: a structured log record (§3); the free-form
details field is stored raw and parsed on demand by `detailsMap`. -/
structure LogRecord where
  timestamp : Nat
  source_ip : String
  user_id : String
  action : String
  status : String
  latency_ms : Nat
  details_raw : String
deriving DecidableEq

/-- Modelled from the spec: a parse error carrying the 1-based line number,
the raw line text and an error kind (§3). -/
structure ParseError where
  line_number : Nat
  raw : String
  kind : ErrorKind
deriving DecidableEq

/-- Modelled from the spec: split one `,`-separated details token on its
first `:`; a token without `:` gets an empty value (§4.1). -/
def splitFirstColon (cs : List Char) : String × String :=
  match cs.span (· != ':') with
  | (k, []) => (String.mk k, "")
  | (k, _ :: v) => (String.mk k, String.mk v)

/-- Modelled from the spec: the on-demand details accessor — split the raw
details on `,`, then each token on its first `:` (§4.1). -/
def detailsMap (r : LogRecord) : List (String × String) :=
  (r.details_raw.toList.splitOn ',').map splitFirstColon

/-- Modelled from the spec: `parse(line, line_number)` (§4.1) — split on
`|`; fewer than 7 fields is `MalformedFieldCount`; the timestamp must be a
non-negative integer, else `InvalidTimestamp`; the latency must be
`<int>ms`, else `InvalidLatency`; the details field is the remainder after
the 6th delimiter, not re-split on `|`. -/
def parse (line : String) (line_number : Nat) : LogRecord ⊕ ParseError :=
  let parts := splitFields line
  if parts.length < 7 then
    Sum.inr ⟨line_number, line, ErrorKind.MalformedFieldCount⟩
  else
    match parseNat? (parts.getD 0 "") with
    | none => Sum.inr ⟨line_number, line, ErrorKind.InvalidTimestamp⟩
    | some ts =>
      match stripSuffixMs (parts.getD 5 "") with
      | none => Sum.inr ⟨line_number, line, ErrorKind.InvalidLatency⟩
      | some latencyDigits =>
        match parseNat? latencyDigits with
        | none => Sum.inr ⟨line_number, line, ErrorKind.InvalidLatency⟩
        | some lat =>
          Sum.inl ⟨ts, parts.getD 1 "", parts.getD 2 "", parts.getD 3 "",
            parts.getD 4 "", lat, String.intercalate "|" (parts.drop 6)⟩

/-- C7: the spec's Scenario 1 — the canonical well-formed line parses to
exactly the expected record, and its details map to `{"Details": "N/A"}`. -/
theorem parse_scenario_one (n : Nat) :
    parse "1672531200|10.0.0.5|user_alpha|LOGIN|SUCCESS|42ms|Details:N/A" n
        = Sum.inl { timestamp := 1672531200, source_ip := "10.0.0.5",
                    user_id := "user_alpha", action := "LOGIN",
                    status := "SUCCESS", latency_ms := 42,
                    details_raw := "Details:N/A" }
      ∧ detailsMap { timestamp := 1672531200, source_ip := "10.0.0.5",
                     user_id := "user_alpha", action := "LOGIN",
                     status := "SUCCESS", latency_ms := 42,
                     details_raw := "Details:N/A" }
          = [("Details", "N/A")] :=
  ⟨rfl, rfl⟩

/-- C8: every line with fewer than 7 `|`-delimited fields parses to a
`MalformedFieldCount` error carrying the line number, never a record. -/
theorem parse_too_few_fields (line : String) (ln : Nat)
    (h : (splitFields line).length < 7) :
    parse line ln
      = Sum.inr { line_number := ln, raw := line,
                  kind := ErrorKind.MalformedFieldCount } := by
  simp [parse, h]

/-- Concrete instance of `parse_too_few_fields` (the spec's Scenario 3). -/
theorem parse_too_few_fields_witness :
    (splitFields "bad|line").length < 7
      ∧ parse "bad|line" 3
          = Sum.inr { line_number := 3, raw := "bad|line",
                      kind := ErrorKind.MalformedFieldCount } :=
  ⟨by decide, parse_too_few_fields "bad|line" 3 (by decide)⟩

/-! ## The streaming aggregator

Modelled from the spec: the repository does not yet contain the Streaming
Aggregator (§4.2); its running state is built from the spec's words.  The
latency summary is kept as the online count/sum/min/max fold (the spec
leaves the percentile-estimation method as an implementation choice). -/

/-- Modelled from the spec: the aggregator's running counters (§3, §4.2). -/
structure Aggregator where
  totalLines : Nat
  recordsParsed : Nat
  parseErrors : Nat
  actionCounts : String → Nat
  statusCounts : String → Nat
  latencyCount : Nat
  latencySum : Nat
  latencyMin : Option Nat
  latencyMax : Option Nat

/-- The empty aggregator, before any `ingest` call. -/
def Aggregator.init : Aggregator :=
  ⟨0, 0, 0, fun _ => 0, fun _ => 0, 0, 0, none, none⟩

/-- Modelled from the spec: `ingest` (§4.2) — a record increments
total-lines and the per-action/per-status counters and folds its latency
into the running summary; a parse error increments total-lines and the
parse-error count only. -/
def ingest (st : Aggregator) (item : LogRecord ⊕ ParseError) : Aggregator :=
  match item with
  | Sum.inl r =>
    { totalLines := st.totalLines + 1,
      recordsParsed := st.recordsParsed + 1,
      parseErrors := st.parseErrors,
      actionCounts := fun a =>
        if a = r.action then st.actionCounts a + 1 else st.actionCounts a,
      statusCounts := fun s =>
        if s = r.status then st.statusCounts s + 1 else st.statusCounts s,
      latencyCount := st.latencyCount + 1,
      latencySum := st.latencySum + r.latency_ms,
      latencyMin := some (match st.latencyMin with
        | none => r.latency_ms
        | some m => min m r.latency_ms),
      latencyMax := some (match st.latencyMax with
        | none => r.latency_ms
        | some m => max m r.latency_ms) }
  | Sum.inr _ =>
    { st with totalLines := st.totalLines + 1,
              parseErrors := st.parseErrors + 1 }

/-- A whole stream of `ingest` calls, in order. -/
def ingestAll (st : Aggregator) (items : List (LogRecord ⊕ ParseError)) :
    Aggregator :=
  items.foldl ingest st

/-- Modelled from the spec: `snapshot()` is a point-in-time read of the
counters with no finalize step — the identity copy of the state (§4.2). -/
def snapshot (st : Aggregator) : Aggregator := st

theorem ingestAll_counts :
    ∀ (items : List (LogRecord ⊕ ParseError)) (st : Aggregator),
      (ingestAll st items).totalLines = st.totalLines + items.length
        ∧ (ingestAll st items).recordsParsed + (ingestAll st items).parseErrors
            = st.recordsParsed + st.parseErrors + items.length := by
  intro items
  induction items with
  | nil => intro st; simp [ingestAll]
  | cons item rest ih =>
    intro st
    have hstep : ingestAll st (item :: rest) = ingestAll (ingest st item) rest := rfl
    rw [hstep]
    obtain ⟨ha, hb⟩ := ih (ingest st item)
    have h1 : (ingest st item).totalLines = st.totalLines + 1 := by
      cases item <;> rfl
    have h2 : (ingest st item).recordsParsed + (ingest st item).parseErrors
        = st.recordsParsed + st.parseErrors + 1 := by
      cases item <;> simp [ingest] <;> omega
    simp only [List.length_cons]
    omega

/-- C9: after any `N` ingest calls, any mix of records and errors, the
snapshot reads `total lines seen = N` and
`records parsed + parse errors = N`. -/
theorem aggregator_count_invariant (items : List (LogRecord ⊕ ParseError)) :
    (snapshot (ingestAll Aggregator.init items)).totalLines = items.length
      ∧ (snapshot (ingestAll Aggregator.init items)).recordsParsed
          + (snapshot (ingestAll Aggregator.init items)).parseErrors
            = items.length := by
  obtain ⟨ha, hb⟩ := ingestAll_counts items Aggregator.init
  have hz1 : Aggregator.init.totalLines = 0 := rfl
  have hz2 : Aggregator.init.recordsParsed = 0 := rfl
  have hz3 : Aggregator.init.parseErrors = 0 := rfl
  unfold snapshot
  omega

end LogFileAnalyzer
